import Mathlib

/-!
# Verification of the Bayesian genotype-caller core (`src/bayes.cpp`)

Shallow embedding of the per-position genotyping pipeline driven by `main`
in `src/bayes.cpp`, together with the collaborator functions it calls
(`multichoose`, `groupAllelesBySample`, `probObservedAllelesGivenGenotypes`,
`normalizeGenotypeProbabilities`, `float2phred`), which are declared in
headers that are not part of the available sources and are therefore
modelled from the specification.

Probabilities carried through the pipeline are embedded as exact rationals
(`ℚ`); the two Phred conversions, which are transcendental
(`10 ^ (-q/10)` and `-10·log10`), are embedded over `ℝ`.
-/

namespace Bayes

/-- The `kind` tag of an allele (`ALLELE_REFERENCE | ALLELE_SNP |
ALLELE_INDEL` in the C++ sources; indels are excluded from processing). -/
inductive AlleleType where
  | reference : AlleleType
  | snp : AlleleType
  | indel : AlleleType
deriving DecidableEq, Repr, Inhabited

/-- An observed or hypothesized base call.  Attributes follow the data
model of the specification: kind, observed sequence, reference length,
genomic position, sample identifier and Phred base quality.  (Strand is
irrelevant to every function modelled here and is omitted.) -/
structure Allele where
  type : AlleleType
  sequence : String := ""
  length : Nat := 0
  position : Nat := 0
  sampleID : String := ""
  quality : Nat := 0
deriving DecidableEq, Repr, Inhabited

/-- A genotype is a size-`k` collection of alleles; genotype equality is
multiset (order-insensitive) equality, i.e. `List.Perm`. -/
abbrev Genotype := List Allele

/-- Constructor for the synthetic hypothesis alleles built at
`src/bayes.cpp:64-68` (`genotypeAllele(type, seq, len)`). -/
def genotypeAllele (t : AlleleType) (seq : String := "") (len : Nat := 0) : Allele :=
  { type := t, sequence := seq, length := len }

/-- The fixed genotype alphabet of `main` (`src/bayes.cpp:63-68`):
the reference allele plus the four single-base SNP hypotheses. -/
def genotypeAlleles : List Allele :=
  [genotypeAllele AlleleType.reference,
   genotypeAllele AlleleType.snp "A" 1,
   genotypeAllele AlleleType.snp "T" 1,
   genotypeAllele AlleleType.snp "G" 1,
   genotypeAllele AlleleType.snp "C" 1]

/-- Modelled from the spec: `multichoose.h` is not among the available
sources.  §4.2 Genotype Combinator: all multisets of size `k` drawn from
the alphabet (combinations with repetition), emitted in the
lexicographic-by-alphabet-index order, deterministically. -/
def multichoose {α : Type} : Nat → List α → List (List α)
  | 0, _ => [[]]
  | _ + 1, [] => []
  | k + 1, x :: xs => (multichoose k (x :: xs)).map (fun g => x :: g) ++ multichoose (k + 1) xs

/-- The genotype set built once by `main` (`src/bayes.cpp:69`):
`multichoose(2, genotypeAlleles)`. -/
def genotypes : List Genotype := multichoose 2 genotypeAlleles

/-- Modelled from the spec: `groupAllelesBySample` (declared in a header
not among the available sources).  §4.3 Observation Grouper: a pure
partition of the position's alleles keyed by sample identifier, the
relative input order kept inside every group.  The keys, in order of first
appearance. -/
def sampleKeys (alleles : List Allele) : List String :=
  (alleles.map (fun a => a.sampleID)).dedup

/-- Modelled from the spec: §4.3, `group(alleles) -> mapping sampleId ->
sequence of Allele`.  (The C++ `std::map` iterates keys in sorted order;
no property verified here depends on the order of the groups, only on the
order inside each group.) -/
def groupAllelesBySample (alleles : List Allele) : List (String × List Allele) :=
  (sampleKeys alleles).map (fun s => (s, alleles.filter (fun a => a.sampleID = s)))

/-- Sum of the raw scores of a likelihood table. -/
def scoreSum (probs : List (Genotype × ℚ)) : ℚ :=
  (probs.map (fun p => p.2)).sum

/-- Modelled from the spec: `normalizeGenotypeProbabilities`
(`Function-Math.h`, not among the available sources; called at
`src/bayes.cpp:94`).  §8: divide every raw score by the total so the
output sums to 1; §7 DegenerateNormalization: an all-zero table is
detected explicitly and resolved to the uniform distribution instead of
dividing by zero. -/
def normalizeGenotypeProbabilities (probs : List (Genotype × ℚ)) : List (Genotype × ℚ) :=
  let s := scoreSum probs
  if s = 0 then probs.map (fun p => (p.1, (1 : ℚ) / probs.length))
  else probs.map (fun p => (p.1, p.2 / s))

/-- Per-sample record emitted by `main` (`src/bayes.cpp:99-108`): the
sample identifier read from the group's first element, the coverage read
from the group's size, and the normalized genotype distribution. -/
structure SampleResult where
  sampleID : String
  coverage : Nat
  genotypes : List (Genotype × ℚ)
deriving Repr

/-- One output record per covered position (`src/bayes.cpp:76-114`). -/
structure PositionResult where
  sequence : String
  position : Nat
  samples : List SampleResult
deriving Repr

/-- One iteration of the `main` loop body for a position's allele list
(`src/bayes.cpp:71-114`), parametric in the likelihood engine `f`
(`caller->probObservedAllelesGivenGenotypes`, whose numeric definition
lives outside the available sources): an empty allele list is skipped
(`src/bayes.cpp:73-74`, `continue`), otherwise the alleles are grouped by
sample and, for each group, the likelihood table is normalized and emitted
together with the sample identifier and coverage.  No prior is applied:
`src/bayes.cpp:95` notes this is where priors would be incorporated. -/
def processPosition (f : List Allele → List (Genotype × ℚ))
    (seqName : String) (pos : Nat) (alleles : List Allele) : Option PositionResult :=
  if alleles = [] then none
  else some
    { sequence := seqName
      position := pos
      samples := (groupAllelesBySample alleles).map (fun sg =>
        { sampleID := sg.2.headI.sampleID
          coverage := sg.2.length
          genotypes := normalizeGenotypeProbabilities (f sg.2) }) }

/-- The `while (caller->getNextAlleles(alleles))` loop of `main`
(`src/bayes.cpp:71-116`) over the stream of per-position allele lists. -/
def callerLoop (f : List Allele → List (Genotype × ℚ))
    (positions : List (String × Nat × List Allele)) : List PositionResult :=
  positions.filterMap (fun t => processPosition f t.1 t.2.1 t.2.2)

/-- Modelled from the spec: the posterior stage of §4.5 with an injectable
prior model (stages 4-5): weight each retained genotype's likelihood by
its prior, then normalize; for a single sample the marginalization
(stage 6) is the identity, so this is the per-sample distribution the
six-stage pipeline would emit. -/
def applyPriorAndNormalize (prior : Genotype → ℚ) (table : List (Genotype × ℚ)) :
    List (Genotype × ℚ) :=
  normalizeGenotypeProbabilities (table.map (fun p => (p.1, p.2 * prior p.1)))

/-- Modelled from the spec: the example prior shape of §4.5 stage 4,
down-weighting genotypes carrying non-reference alleles. -/
def variantDownweightPrior (g : Genotype) : ℚ :=
  if g.all (fun a => a.type = AlleleType.reference) then 1 else 1 / 10

/-- Modelled from the spec: the Phred encoding of §4.4 and the glossary,
`e = 10 ^ (−Q/10)` (the `phred2float` helper of `Function-Math.h`, which
is not among the available sources). -/
noncomputable def phred2float (q : Nat) : ℝ :=
  (10 : ℝ) ^ (-(q : ℝ) / 10)

/-- Modelled from the spec: §4.4, probability that one observed base
matches a single true call `g`: `1 − e` when the observed sequence equals
`g`'s sequence, else `e/(|alphabet| − 1)` split uniformly over the
mismatching possibilities. -/
noncomputable def pMatch (alphabetSize : Nat) (obs g : Allele) : ℝ :=
  if obs.sequence = g.sequence then 1 - phred2float obs.quality
  else phred2float obs.quality / ((alphabetSize : ℝ) - 1)

/-- Modelled from the spec: §4.4, per-base probability under a diploid
genotype `{g1, g2}`: `0.5·P(match|g1) + 0.5·P(match|g2)`. -/
noncomputable def probBaseGivenGenotype (alphabetSize : Nat) (obs g1 g2 : Allele) : ℝ :=
  1 / 2 * pMatch alphabetSize obs g1 + 1 / 2 * pMatch alphabetSize obs g2

/-- Modelled from the spec: §4.4, the likelihood
`probObservedAllelesGivenGenotypes` (declared in `Caller.h`, not among the
available sources; called at `src/bayes.cpp:92`) of one sample's observed
alleles under one diploid genotype, accumulated observation by
observation. -/
noncomputable def probObservedAllelesGivenGenotype (alphabetSize : Nat) :
    List Allele → Allele → Allele → ℝ
  | [], _, _ => 1
  | o :: rest, g1, g2 =>
      probBaseGivenGenotype alphabetSize o g1 g2 *
        probObservedAllelesGivenGenotype alphabetSize rest g1 g2

/-- Modelled from the spec: §6, `float2phred` (`Function-Math.h`, not
among the available sources), the Phred scaling of an error probability,
`−10·log10 e`. -/
noncomputable def float2phred (e : ℝ) : ℝ :=
  -10 * Real.logb 10 e

/-- The confidence printed per genotype at `src/bayes.cpp:107`:
`float2phred(1 - posterior)`. -/
noncomputable def emittedGenotypeScore (p : ℚ) : ℝ :=
  float2phred (1 - (p : ℝ))

/-- The homozygous-reference genotype (first element of `genotypes`). -/
def gRefRef : Genotype :=
  [genotypeAllele AlleleType.reference, genotypeAllele AlleleType.reference]

/-- The homozygous-`A` genotype. -/
def gAltAlt : Genotype :=
  [genotypeAllele AlleleType.snp "A" 1, genotypeAllele AlleleType.snp "A" 1]

/-- A concrete two-genotype likelihood table with equal raw scores. -/
def exTable : List (Genotype × ℚ) := [(gRefRef, 1 / 2), (gAltAlt, 1 / 2)]

/-- A concrete likelihood table with distinct positive raw scores. -/
def exScores : List (Genotype × ℚ) := [(gRefRef, 1), (gAltAlt, 3)]

/-- A concrete likelihood table whose raw scores all underflowed to zero. -/
def exZeroScores : List (Genotype × ℚ) := [(gRefRef, 0), (gAltAlt, 0)]

/-- A concrete observed allele of sample `"S1"`. -/
def exAlleleS1 : Allele :=
  { type := AlleleType.reference, sequence := "T", length := 1, position := 0,
    sampleID := "S1", quality := 30 }

/-- A degenerate likelihood engine used to instantiate the engine parameter
of `processPosition` at concrete inputs. -/
def noLikelihoods : List Allele → List (Genotype × ℚ) := fun _ => []

/-! ## Helper lemmas about grouping -/

lemma count_filter_eq_if (l : List Allele) (p : Allele → Bool) (a : Allele) :
    (l.filter p).count a = if p a then l.count a else 0 := by
  by_cases h : p a
  · simp [h, List.count_filter h]
  · simp only [h, if_false]
    exact List.count_eq_zero_of_not_mem (fun hm => h (List.of_mem_filter hm))

lemma count_flatMap_filter (ks : List String) (hk : ks.Nodup) (l : List Allele) (a : Allele) :
    (ks.flatMap (fun s => l.filter (fun x => x.sampleID = s))).count a =
      if a.sampleID ∈ ks then l.count a else 0 := by
  induction ks with
  | nil => simp
  | cons k ks ih =>
      rw [List.nodup_cons] at hk
      rw [List.flatMap_cons, List.count_append, ih hk.2, count_filter_eq_if]
      by_cases h : a.sampleID = k
      · subst h
        simp [hk.1]
      · simp [h, Ne.symm h]

lemma mem_sampleKeys_of_mem {a : Allele} {l : List Allele} (h : a ∈ l) :
    a.sampleID ∈ sampleKeys l := by
  rw [sampleKeys, List.mem_dedup]
  exact List.mem_map_of_mem _ h

lemma mem_group_eq {alleles : List Allele} {sg : String × List Allele}
    (h : sg ∈ groupAllelesBySample alleles) :
    sg.1 ∈ sampleKeys alleles ∧ sg.2 = alleles.filter (fun a => a.sampleID = sg.1) := by
  rw [groupAllelesBySample, List.mem_map] at h
  obtain ⟨s, hs, rfl⟩ := h
  exact ⟨hs, rfl⟩

lemma keyed_by_own_id {alleles : List Allele} {sg : String × List Allele}
    (h : sg ∈ groupAllelesBySample alleles) : ∀ a ∈ sg.2, a.sampleID = sg.1 := by
  intro a ha
  rw [(mem_group_eq h).2] at ha
  simpa using (List.of_mem_filter ha)

lemma group_of_key {alleles : List Allele} {s : String} (hs : s ∈ sampleKeys alleles) :
    (s, alleles.filter (fun a => a.sampleID = s)) ∈ groupAllelesBySample alleles := by
  rw [groupAllelesBySample, List.mem_map]
  exact ⟨s, hs, rfl⟩

lemma headI_mem_self {l : List Allele} (h : l ≠ []) : l.headI ∈ l := by
  cases l with
  | nil => exact absurd rfl h
  | cons a t => exact List.mem_cons_self a t

lemma group_ne_nil {alleles : List Allele} {sg : String × List Allele}
    (h : sg ∈ groupAllelesBySample alleles) : sg.2 ≠ [] := by
  obtain ⟨hkey, hgrp⟩ := mem_group_eq h
  rw [sampleKeys, List.mem_dedup, List.mem_map] at hkey
  obtain ⟨a, ha, hid⟩ := hkey
  have : a ∈ sg.2 := by
    rw [hgrp]
    exact List.mem_filter.mpr ⟨ha, by simp [hid]⟩
  exact List.ne_nil_of_mem this

/-! ## Helper lemmas about normalization -/

lemma zip_self_map {α β : Type} (l : List α) (g : α → β) :
    l.zip (l.map g) = l.map (fun a => (a, g a)) := by
  have := List.zip_map' (id : α → α) g l
  simpa using this

lemma scoreSum_map_mul (table : List (Genotype × ℚ)) (c : ℚ) :
    scoreSum (table.map (fun p => (p.1, p.2 * c))) = scoreSum table * c := by
  rw [scoreSum, scoreSum, List.map_map]
  have h : ((fun p => p.2) ∘ fun p : Genotype × ℚ => (p.1, p.2 * c)) =
      fun p : Genotype × ℚ => p.2 * c := rfl
  rw [h, List.sum_map_mul_right]

/-! ## Claim theorems -/

/-- C2: the genotype generator applied to the default five-element alphabet
{Reference, A, T, G, C} at ploidy 2 (`src/bayes.cpp:63-69`) produces
exactly `C(5 + 2 − 1, 2) = 15` genotypes, pairwise distinct as multisets,
covering every size-2 multiset of the alphabet, in one fixed explicit
order (the generator is a pure function of its arguments, so this order is
identical across runs). -/
theorem multichoose_default_alphabet :
    genotypes.length = Nat.choose (genotypeAlleles.length + 2 - 1) 2 ∧
    genotypes.length = 15 ∧
    (genotypes.map (fun g => Multiset.ofList g)).Nodup ∧
    (∀ a ∈ genotypeAlleles, ∀ b ∈ genotypeAlleles,
      ∃ g ∈ genotypes, Multiset.ofList g = {a, b}) ∧
    genotypes =
      [[genotypeAllele AlleleType.reference, genotypeAllele AlleleType.reference],
       [genotypeAllele AlleleType.reference, genotypeAllele AlleleType.snp "A" 1],
       [genotypeAllele AlleleType.reference, genotypeAllele AlleleType.snp "T" 1],
       [genotypeAllele AlleleType.reference, genotypeAllele AlleleType.snp "G" 1],
       [genotypeAllele AlleleType.reference, genotypeAllele AlleleType.snp "C" 1],
       [genotypeAllele AlleleType.snp "A" 1, genotypeAllele AlleleType.snp "A" 1],
       [genotypeAllele AlleleType.snp "A" 1, genotypeAllele AlleleType.snp "T" 1],
       [genotypeAllele AlleleType.snp "A" 1, genotypeAllele AlleleType.snp "G" 1],
       [genotypeAllele AlleleType.snp "A" 1, genotypeAllele AlleleType.snp "C" 1],
       [genotypeAllele AlleleType.snp "T" 1, genotypeAllele AlleleType.snp "T" 1],
       [genotypeAllele AlleleType.snp "T" 1, genotypeAllele AlleleType.snp "G" 1],
       [genotypeAllele AlleleType.snp "T" 1, genotypeAllele AlleleType.snp "C" 1],
       [genotypeAllele AlleleType.snp "G" 1, genotypeAllele AlleleType.snp "G" 1],
       [genotypeAllele AlleleType.snp "G" 1, genotypeAllele AlleleType.snp "C" 1],
       [genotypeAllele AlleleType.snp "C" 1, genotypeAllele AlleleType.snp "C" 1]] := by
  have h : genotypes =
      [[genotypeAllele AlleleType.reference, genotypeAllele AlleleType.reference],
       [genotypeAllele AlleleType.reference, genotypeAllele AlleleType.snp "A" 1],
       [genotypeAllele AlleleType.reference, genotypeAllele AlleleType.snp "T" 1],
       [genotypeAllele AlleleType.reference, genotypeAllele AlleleType.snp "G" 1],
       [genotypeAllele AlleleType.reference, genotypeAllele AlleleType.snp "C" 1],
       [genotypeAllele AlleleType.snp "A" 1, genotypeAllele AlleleType.snp "A" 1],
       [genotypeAllele AlleleType.snp "A" 1, genotypeAllele AlleleType.snp "T" 1],
       [genotypeAllele AlleleType.snp "A" 1, genotypeAllele AlleleType.snp "G" 1],
       [genotypeAllele AlleleType.snp "A" 1, genotypeAllele AlleleType.snp "C" 1],
       [genotypeAllele AlleleType.snp "T" 1, genotypeAllele AlleleType.snp "T" 1],
       [genotypeAllele AlleleType.snp "T" 1, genotypeAllele AlleleType.snp "G" 1],
       [genotypeAllele AlleleType.snp "T" 1, genotypeAllele AlleleType.snp "C" 1],
       [genotypeAllele AlleleType.snp "G" 1, genotypeAllele AlleleType.snp "G" 1],
       [genotypeAllele AlleleType.snp "G" 1, genotypeAllele AlleleType.snp "C" 1],
       [genotypeAllele AlleleType.snp "C" 1, genotypeAllele AlleleType.snp "C" 1]] := by
    simp [genotypes, genotypeAlleles, multichoose]
  refine ⟨?_, ?_, ?_, ?_, h⟩ <;> rw [h] <;> decide

/-- C8: grouping by sample is a pure partition: every group's alleles carry
the group's own key, every input allele lies in exactly one group, the
groups' contents joined are a permutation of the input (no allele
duplicated or dropped), and each group is a sublist of the input, so the
relative input order is kept inside every group. -/
theorem groupAllelesBySample_partition (alleles : List Allele) :
    (∀ sg ∈ groupAllelesBySample alleles, ∀ a ∈ sg.2, a.sampleID = sg.1) ∧
    (∀ a ∈ alleles, ∃! sg, sg ∈ groupAllelesBySample alleles ∧ a ∈ sg.2) ∧
    ((groupAllelesBySample alleles).flatMap (fun sg => sg.2)).Perm alleles ∧
    (∀ sg ∈ groupAllelesBySample alleles, sg.2.Sublist alleles) := by
  refine ⟨fun sg h => keyed_by_own_id h, ?_, ?_, ?_⟩
  · intro a ha
    refine ⟨(a.sampleID, alleles.filter (fun x => x.sampleID = a.sampleID)),
      ⟨group_of_key (mem_sampleKeys_of_mem ha), List.mem_filter.mpr ⟨ha, by simp⟩⟩, ?_⟩
    rintro ⟨s', g'⟩ ⟨hmem, hain⟩
    have hkey := keyed_by_own_id hmem a hain
    have hgrp := (mem_group_eq hmem).2
    simp only at hkey hgrp
    subst hkey
    simp [hgrp]
  · rw [List.perm_iff_count]
    intro a
    rw [groupAllelesBySample, List.flatMap_map]
    have hcnt := count_flatMap_filter (sampleKeys alleles) (List.nodup_dedup _) alleles a
    simp only [Function.comp] at hcnt ⊢
    rw [hcnt]
    by_cases h : a.sampleID ∈ sampleKeys alleles
    · simp [h]
    · have hna : a ∉ alleles := fun hm => h (mem_sampleKeys_of_mem hm)
      simp [h, List.count_eq_zero_of_not_mem hna]
  · intro sg h
    rw [(mem_group_eq h).2]
    exact List.filter_sublist alleles

/-- C5: a position with an empty allele list is skipped by the `continue`
at `src/bayes.cpp:73-74`: it produces no output record, and the loop goes
on with the remaining positions unchanged. -/
theorem empty_position_skipped (f : List Allele → List (Genotype × ℚ))
    (sq : String) (pos : Nat) (xs ys : List (String × Nat × List Allele)) :
    processPosition f sq pos [] = none ∧
    callerLoop f (xs ++ (sq, pos, ([] : List Allele)) :: ys) =
      callerLoop f xs ++ callerLoop f ys := by
  constructor
  · rw [processPosition]
    simp
  · rw [callerLoop, callerLoop, callerLoop, List.filterMap_append, List.filterMap_cons]
    simp [processPosition]

/-- C7 (code bug evaluated at its failing input): at a position whose
alleles all come from sample `"S1"`, the emitted record lists `"S1"` only
— a configured sample such as `"S2"` with no observations at the position
is omitted instead of receiving a uniform posterior (the `TODO` at
`src/bayes.cpp:80` records the missing forced calculation). -/
theorem unobserved_sample_omitted (f : List Allele → List (Genotype × ℚ)) :
    (processPosition f "chr1" 0 [exAlleleS1]).map
      (fun r => r.samples.map (fun sr => sr.sampleID)) = some ["S1"] := by
  rfl

/-- C10: on a nonempty allele list every per-sample group is nonempty, so
the reads of the group's first element (`front()` at `src/bayes.cpp:99`)
and of its size (`src/bayes.cpp:100`) are defined: the group's head
carries the group's key, and the coverage emitted for a sample equals the
number of input alleles observed for that sample. -/
theorem group_reads_defined (f : List Allele → List (Genotype × ℚ))
    (sq : String) (pos : Nat) (alleles : List Allele) (h : alleles ≠ []) :
    (∀ sg ∈ groupAllelesBySample alleles,
      sg.2 ≠ [] ∧ sg.2.headI.sampleID = sg.1) ∧
    ∃ r, processPosition f sq pos alleles = some r ∧
      ∀ sr ∈ r.samples,
        sr.coverage = (alleles.filter (fun a => a.sampleID = sr.sampleID)).length := by
  have hgrp : ∀ sg ∈ groupAllelesBySample alleles,
      sg.2 ≠ [] ∧ sg.2.headI.sampleID = sg.1 := by
    intro sg hsg
    have hne := group_ne_nil hsg
    exact ⟨hne, keyed_by_own_id hsg _ (headI_mem_self hne)⟩
  refine ⟨hgrp, ?_⟩
  rw [processPosition, if_neg h]
  refine ⟨_, rfl, ?_⟩
  intro sr hsr
  rw [List.mem_map] at hsr
  obtain ⟨sg, hsg, rfl⟩ := hsr
  have hid := (hgrp sg hsg).2
  simp only [hid]
  rw [(mem_group_eq hsg).2]

/-- Closed witness for C10 at a one-allele position. -/
theorem group_reads_defined_witness :
    ([exAlleleS1] ≠ ([] : List Allele)) ∧
    ((∀ sg ∈ groupAllelesBySample [exAlleleS1],
        sg.2 ≠ [] ∧ sg.2.headI.sampleID = sg.1) ∧
      ∃ r, processPosition noLikelihoods "chr1" 0 [exAlleleS1] = some r ∧
        ∀ sr ∈ r.samples,
          sr.coverage =
            (([exAlleleS1]).filter (fun a => a.sampleID = sr.sampleID)).length) :=
  ⟨by decide, group_reads_defined noLikelihoods "chr1" 0 [exAlleleS1] (by decide)⟩

/-- C4: normalization of a nonempty table of non-negative raw scores with
positive sum yields probabilities summing to 1 within `1e−9` (here the sum
is exactly 1 over `ℚ`), and it preserves the rank order of the inputs: a
higher raw score never gets a lower normalized probability. -/
theorem normalize_sum_one_rank (probs : List (Genotype × ℚ))
    (hne : probs ≠ []) (hnn : ∀ p ∈ probs, 0 ≤ p.2) (hpos : 0 < scoreSum probs) :
    |scoreSum (normalizeGenotypeProbabilities probs) - 1| ≤ 1 / 10 ^ 9 ∧
    ∀ x ∈ probs.zip (normalizeGenotypeProbabilities probs),
      ∀ y ∈ probs.zip (normalizeGenotypeProbabilities probs),
        x.1.2 ≤ y.1.2 → x.2.2 ≤ y.2.2 := by
  have hs : scoreSum probs ≠ 0 := ne_of_gt hpos
  have hnorm : normalizeGenotypeProbabilities probs =
      probs.map (fun p => (p.1, p.2 / scoreSum probs)) := by
    rw [normalizeGenotypeProbabilities]
    simp [hs]
  constructor
  · have hone : scoreSum (normalizeGenotypeProbabilities probs) = 1 := by
      rw [hnorm, scoreSum, List.map_map]
      have hc : ((fun p => p.2) ∘ fun p : Genotype × ℚ => (p.1, p.2 / scoreSum probs)) =
          fun p : Genotype × ℚ => p.2 * (scoreSum probs)⁻¹ := by
        funext p
        simp [div_eq_mul_inv]
      rw [hc, List.sum_map_mul_right]
      exact mul_inv_cancel₀ hs
    rw [hone]
    norm_num
  · intro x hx y hy hle
    rw [hnorm, zip_self_map] at hx hy
    obtain ⟨a, _, rfl⟩ := List.mem_map.mp hx
    obtain ⟨b, _, rfl⟩ := List.mem_map.mp hy
    simp only at hle ⊢
    exact div_le_div_of_nonneg_right hle hpos.le

/-- Closed witness for C4 at a concrete two-row table. -/
theorem normalize_sum_one_rank_witness :
    (exScores ≠ [] ∧ (∀ p ∈ exScores, 0 ≤ p.2) ∧ 0 < scoreSum exScores) ∧
    (|scoreSum (normalizeGenotypeProbabilities exScores) - 1| ≤ 1 / 10 ^ 9 ∧
      ∀ x ∈ exScores.zip (normalizeGenotypeProbabilities exScores),
        ∀ y ∈ exScores.zip (normalizeGenotypeProbabilities exScores),
          x.1.2 ≤ y.1.2 → x.2.2 ≤ y.2.2) := by
  have h1 : exScores ≠ [] := by simp [exScores]
  have h2 : ∀ p ∈ exScores, 0 ≤ p.2 := by decide
  have h3 : 0 < scoreSum exScores := by norm_num [scoreSum, exScores]
  exact ⟨⟨h1, h2, h3⟩, normalize_sum_one_rank exScores h1 h2 h3⟩

/-- C9: an all-zero score table is detected explicitly (the guard in
`normalizeGenotypeProbabilities`, never a division by zero) and resolved
to the uniform distribution over the table's genotypes, which sums to 1;
the function is total, so the position is recovered, not aborted. -/
theorem degenerate_normalization_uniform (probs : List (Genotype × ℚ))
    (h0 : ∀ p ∈ probs, p.2 = 0) (hne : probs ≠ []) :
    normalizeGenotypeProbabilities probs =
      probs.map (fun p => (p.1, (1 : ℚ) / probs.length)) ∧
    scoreSum (normalizeGenotypeProbabilities probs) = 1 := by
  have hz : scoreSum probs = 0 := by
    rw [scoreSum]
    refine List.sum_eq_zero ?_
    intro x hx
    obtain ⟨p, hp, rfl⟩ := List.mem_map.mp hx
    exact h0 p hp
  have huni : normalizeGenotypeProbabilities probs =
      probs.map (fun p => (p.1, (1 : ℚ) / probs.length)) := by
    rw [normalizeGenotypeProbabilities]
    simp [hz]
  refine ⟨huni, ?_⟩
  rw [huni, scoreSum, List.map_map]
  have hc : ((fun p => p.2) ∘ fun p : Genotype × ℚ => (p.1, (1 : ℚ) / probs.length)) =
      fun _ : Genotype × ℚ => (1 : ℚ) / probs.length := rfl
  rw [hc, List.map_const', List.sum_replicate, nsmul_eq_mul]
  have hlen : (probs.length : ℚ) ≠ 0 := by
    simpa using List.length_pos.mpr hne |>.ne'
  field_simp

/-- Closed witness for C9 at a concrete all-zero table. -/
theorem degenerate_normalization_uniform_witness :
    ((∀ p ∈ exZeroScores, p.2 = 0) ∧ exZeroScores ≠ []) ∧
    (normalizeGenotypeProbabilities exZeroScores =
        exZeroScores.map (fun p => (p.1, (1 : ℚ) / exZeroScores.length)) ∧
      scoreSum (normalizeGenotypeProbabilities exZeroScores) = 1) := by
  have h0 : ∀ p ∈ exZeroScores, p.2 = 0 := by decide
  have hne : exZeroScores ≠ [] := by simp [exZeroScores]
  exact ⟨⟨h0, hne⟩, degenerate_normalization_uniform exZeroScores h0 hne⟩

/-- C1 counterexample: with the specification's example (non-uniform)
prior model, the distribution the code emits — the data likelihoods
normalized with no prior factor (`src/bayes.cpp:91-95`) — differs, at a
concrete two-genotype likelihood table, from the posterior the six-stage
pipeline produces when that prior really is applied before normalization. -/
theorem prior_not_applied_counterexample :
    normalizeGenotypeProbabilities exTable ≠
      applyPriorAndNormalize variantDownweightPrior exTable := by
  intro h
  have h2 := congrArg (fun l => (l.headI).2) h
  simp [normalizeGenotypeProbabilities, applyPriorAndNormalize, exTable, scoreSum,
    variantDownweightPrior, gRefRef, gAltAlt, genotypeAllele] at h2
  norm_num at h2

/-- C1 (amended): the per-sample distribution emitted at
`src/bayes.cpp:91-94` is the sample's data likelihood normalized directly,
with no prior factor; it coincides with the prior-weighted posterior
pipeline exactly in the degenerate case of a constant (uniform) prior. -/
theorem posterior_is_prior_free_normalization (c : ℚ) (hc : 0 < c)
    (table : List (Genotype × ℚ)) :
    applyPriorAndNormalize (fun _ => c) table = normalizeGenotypeProbabilities table := by
  have hsum := scoreSum_map_mul table c
  rw [applyPriorAndNormalize, normalizeGenotypeProbabilities, normalizeGenotypeProbabilities,
    hsum]
  by_cases hz : scoreSum table = 0
  · simp [hz]
  · have hnz : scoreSum table * c ≠ 0 := mul_ne_zero hz hc.ne'
    simp only [hnz, if_neg, hz, if_false, List.map_map]
    congr 1
    funext p
    simp [mul_div_mul_right _ _ hc.ne']

/-- Closed witness for the amended C1 at the constant prior 1 and a
concrete table. -/
theorem posterior_is_prior_free_normalization_witness :
    (0 : ℚ) < 1 ∧
    applyPriorAndNormalize (fun _ => (1 : ℚ)) exTable =
      normalizeGenotypeProbabilities exTable :=
  ⟨by norm_num, posterior_is_prior_free_normalization 1 (by norm_num) exTable⟩

/-- C3: the likelihood of a sample's observations under a diploid genotype
`{g1, g2}` is the product, over the observed alleles, of the per-base
probability `0.5·P(match|g1) + 0.5·P(match|g2)`, where `P(match|g)` is
`1 − e` when the observed sequence equals `g`'s sequence and
`e/(|alphabet| − 1)` otherwise, with `e = 10 ^ (−Q/10)` from the
observation's Phred quality `Q`. -/
theorem likelihood_eq_prod (n : Nat) (obs : List Allele) (g1 g2 : Allele) :
    probObservedAllelesGivenGenotype n obs g1 g2 =
      (obs.map (fun o =>
        1 / 2 * (if o.sequence = g1.sequence
          then 1 - (10 : ℝ) ^ (-(o.quality : ℝ) / 10)
          else (10 : ℝ) ^ (-(o.quality : ℝ) / 10) / ((n : ℝ) - 1)) +
        1 / 2 * (if o.sequence = g2.sequence
          then 1 - (10 : ℝ) ^ (-(o.quality : ℝ) / 10)
          else (10 : ℝ) ^ (-(o.quality : ℝ) / 10) / ((n : ℝ) - 1)))).prod := by
  induction obs with
  | nil => simp [probObservedAllelesGivenGenotype]
  | cons o rest ih =>
      simp only [probObservedAllelesGivenGenotype, ih, List.map_cons, List.prod_cons,
        probBaseGivenGenotype, pMatch, phred2float]

/-- C6: the confidence reported for a genotype whose normalized posterior
is `p` is `float2phred(1 − p) = −10·log10(1 − p)` (`src/bayes.cpp:107`),
and this score is strictly increasing in the posterior below 1: a
posterior closer to 1 gets a larger reported score. -/
theorem emitted_score_phred_mono (p q : ℚ) (hpq : p < q) (hq : q < 1) :
    emittedGenotypeScore p = -10 * Real.logb 10 (1 - (p : ℝ)) ∧
    emittedGenotypeScore p < emittedGenotypeScore q := by
  refine ⟨rfl, ?_⟩
  have hq1 : (q : ℝ) < 1 := by exact_mod_cast hq
  have hpq1 : (p : ℝ) < (q : ℝ) := by exact_mod_cast hpq
  have hx : (0 : ℝ) < 1 - (q : ℝ) := by linarith
  have hxy : 1 - (q : ℝ) < 1 - (p : ℝ) := by linarith
  have hlog : Real.logb 10 (1 - (q : ℝ)) < Real.logb 10 (1 - (p : ℝ)) :=
    Real.logb_lt_logb (by norm_num) hx hxy
  have hmul := mul_lt_mul_of_neg_left hlog (by norm_num : (-10 : ℝ) < 0)
  simpa [emittedGenotypeScore, float2phred] using hmul

/-- Closed witness for C6 at the posteriors 1/2 and 3/4. -/
theorem emitted_score_phred_mono_witness :
    ((1 : ℚ) / 2 < 3 / 4 ∧ (3 : ℚ) / 4 < 1) ∧
    (emittedGenotypeScore (1 / 2) = -10 * Real.logb 10 (1 - (((1 : ℚ) / 2 : ℚ) : ℝ)) ∧
      emittedGenotypeScore (1 / 2) < emittedGenotypeScore (3 / 4)) :=
  ⟨⟨by norm_num, by norm_num⟩,
    emitted_score_phred_mono (1 / 2) (3 / 4) (by norm_num) (by norm_num)⟩

end Bayes
